import Mathlib

/-!
# Shallow embedding of the rust-mpd protocol decoding layer

This file embeds the entity decoders of the rust-mpd crate
(src/song.rs, src/status.rs, src/output.rs) as executable Lean
definitions and proves properties of them.

Rust machine integers are modelled as `Nat`/`Int` with the parse
functions enforcing the type's range, `time::Duration` as an integer
count of milliseconds, and fallible code as `Except`/`Option`.
-/

namespace Mpd

/-- Decidable equality for `Except` results, used to evaluate the decoders
on concrete inputs. -/
instance {ε α : Type} [DecidableEq ε] [DecidableEq α] :
    DecidableEq (Except ε α) := fun x y =>
  match x, y with
  | .ok a, .ok b =>
    if h : a = b then .isTrue (congrArg Except.ok h)
    else .isFalse (fun he => h (Except.ok.inj he))
  | .error a, .error b =>
    if h : a = b then .isTrue (congrArg Except.error h)
    else .isFalse (fun he => h (Except.error.inj he))
  | .ok _, .error _ => .isFalse (fun he => Except.noConfusion he)
  | .error _, .ok _ => .isFalse (fun he => Except.noConfusion he)

/-! ### Rust string splitting (`str::split`)

`String.splitOn` is defined by well-founded recursion and does not reduce
inside proofs, so the split used by the decoders is given structurally on
the character list. -/

/-- `str::split(sep)` on a character list: splitting the empty string yields
one empty fragment, exactly as in Rust. -/
def splitListOn (sep : Char) : List Char → List (List Char)
  | [] => [[]]
  | c :: rest =>
    if c = sep then [] :: splitListOn sep rest
    else
      match splitListOn sep rest with
      | [] => [[c]]
      | h :: t => (c :: h) :: t

/-- `str::split(sep)` as a list of strings. -/
def rustSplit (sep : Char) (s : String) : List String :=
  (splitListOn sep s.data).map (fun l => ⟨l⟩)

/-! ### Rust standard-library integer parsing (`FromStr` for `uN`/`iN`) -/

/-- Value of an ASCII digit, `none` on any other character. -/
def charDigit? (c : Char) : Option Nat :=
  if c.isDigit then some (c.toNat - 48) else none

/-- Decimal value of a nonempty all-digit character list; `none` when the list
is empty or contains a non-digit (mirrors the digit loop of Rust's integer
`FromStr` implementations). -/
def digitsVal? (l : List Char) : Option Nat :=
  match l with
  | [] => none
  | _ => l.foldlM (fun acc c => (charDigit? c).map (fun d => acc * 10 + d)) 0

/-- Model of Rust `FromStr` for a `width`-bit unsigned integer: an optional
leading plus sign, then one or more digits, failing on overflow. -/
def rustParseUnsigned (width : Nat) (s : String) : Option Nat :=
  let cs := match s.data with
    | '+' :: rest => rest
    | cs => cs
  match digitsVal? cs with
  | some n => if n < 2 ^ width then some n else none
  | none => none

/-- The digit phase of Rust signed-integer parsing: the digits after the
sign, failing on overflow of the `width`-bit two's-complement range. -/
def signedOfDigits (width : Nat) (neg : Bool) (cs : List Char) : Option Int :=
  match digitsVal? cs with
  | some n =>
      if neg then
        if n ≤ 2 ^ (width - 1) then some (-(n : Int)) else none
      else
        if n < 2 ^ (width - 1) then some (n : Int) else none
  | none => none

/-- Model of Rust `FromStr` for a `width`-bit signed integer: an optional
sign, then one or more digits, failing on overflow. -/
def rustParseSigned (width : Nat) (s : String) : Option Int :=
  match s.data with
  | '+' :: rest => signedOfDigits width false rest
  | '-' :: rest => signedOfDigits width true rest
  | cs => signedOfDigits width false cs

def rustParseU8 : String → Option Nat := rustParseUnsigned 8

def rustParseU32 : String → Option Nat := rustParseUnsigned 32

def rustParseI8 : String → Option Int := rustParseSigned 8

def rustParseI64 : String → Option Int := rustParseSigned 64

/-! ### Rust standard-library float parsing (`FromStr` for `f32`)

The elapsed arm of `Status::from_iter` is the only use. Parse success and
failure follow the documented grammar exactly; the numeric value is carried
symbolically (sign, digit value, fractional length, exponent). -/

/-- Outcome of a successful Rust `f32` parse, kept symbolic. -/
inductive F32Val where
  | nan
  | inf (neg : Bool)
  | finite (neg : Bool) (mantissa : Nat) (fracDigits : Nat) (exp : Int)
deriving DecidableEq, Repr

/-- Split a character list into its leading digit run and the remainder. -/
def spanDigits (l : List Char) : List Char × List Char :=
  (l.takeWhile Char.isDigit, l.dropWhile Char.isDigit)

/-- Parse the optional exponent suffix of a float literal; the whole remainder
must be consumed. `digits` is the mantissa collected so far, `frac` the number
of digits after the decimal point. -/
def parseF32Exp (neg : Bool) (digits : List Char) (frac : Nat)
    (rest : List Char) : Option F32Val :=
  match rest with
  | [] => (digitsVal? digits).map (fun n => F32Val.finite neg n frac 0)
  | c :: rest2 =>
    if c = 'e' ∨ c = 'E' then
      let (eneg, rest3) := match rest2 with
        | '+' :: r => (false, r)
        | '-' :: r => (true, r)
        | r => (false, r)
      let (ed, rest4) := spanDigits rest3
      match rest4, digitsVal? ed, digitsVal? digits with
      | [], some e, some n =>
          some (F32Val.finite neg n frac (if eneg then -(e : Int) else (e : Int)))
      | _, _, _ => none
    else none

/-- Model of Rust `FromStr` for `f32`: optional sign, then case-insensitive
`inf`/`infinity`/`nan` or a decimal numeral `Digit* [. Digit*] [e/E Sign?
Digit+]` containing at least one mantissa digit; anything else fails. -/
def rustParseF32 (s : String) : Option F32Val :=
  let (neg, cs) := match s.data with
    | '+' :: rest => (false, rest)
    | '-' :: rest => (true, rest)
    | cs => (false, cs)
  let lower := cs.map Char.toLower
  if lower = "inf".data ∨ lower = "infinity".data then some (F32Val.inf neg)
  else if lower = "nan".data then some F32Val.nan
  else
    let (ip, rest) := spanDigits cs
    match rest with
    | '.' :: rest2 =>
        let (fp, rest3) := spanDigits rest2
        if ip.isEmpty ∧ fp.isEmpty then none
        else parseF32Exp neg (ip ++ fp) fp.length rest3
    | _ =>
        if ip.isEmpty then none else parseF32Exp neg ip 0 rest

def i64Max : Int := 2 ^ 63 - 1

def i64Min : Int := -(2 ^ 63)

/-- Saturating conversion to the i64 range, as Rust's float-to-integer
`as`-cast performs. -/
def saturateI64 (n : Int) : Int :=
  if n > i64Max then i64Max else if n < i64Min then i64Min else n

/-- Milliseconds obtained from a parsed elapsed value: models
`(v * 1000.0) as i64` in the elapsed arm. The `f32` rounding is approximated
by exact arithmetic truncated toward zero; every property proved below
depends only on parse success or failure, never on this numeric value. -/
def F32Val.toMillis : F32Val → Int
  | F32Val.nan => 0
  | F32Val.inf neg => if neg then i64Min else i64Max
  | F32Val.finite neg n frac e =>
      let shift : Int := e - (frac : Int)
      let mag : Nat :=
        if 0 ≤ shift then n * 1000 * 10 ^ shift.toNat
        else n * 1000 / 10 ^ (-shift).toNat
      saturateI64 (if neg then -(mag : Int) else (mag : Int))

/-! ### time::Duration and time::Tm models (external `time` crate) -/

/-- Model of `time::Duration` at millisecond resolution: the crate is used
here only through `Duration::seconds`, `Duration::milliseconds` and
`Duration::zero`. -/
structure Duration where
  millis : Int
deriving DecidableEq, Repr

def Duration.seconds (s : Int) : Duration := ⟨s * 1000⟩

def Duration.milliseconds (ms : Int) : Duration := ⟨ms⟩

def Duration.zero : Duration := ⟨0⟩

/-- Model of `time::Tm` restricted to the fields the fixed format string
`%Y-%m-%dT%H:%M:%S%Z` can fill. -/
structure Tm where
  year : Int
  month : Nat
  day : Nat
  hour : Nat
  minute : Nat
  second : Nat
deriving DecidableEq, Repr

/-- Read exactly `n` digits from the front of `l`. -/
def takeDigits (n : Nat) (l : List Char) : Option (Nat × List Char) :=
  let ds := l.take n
  if ds.length = n ∧ ds.all Char.isDigit then
    (digitsVal? ds).map (fun v => (v, l.drop n))
  else none

/-- Model of the external `time` crate's `strptime` applied to the one format
string the source uses, `%Y-%m-%dT%H:%M:%S%Z`: four digits, date and time
punctuation, two digits per remaining field, then a timezone name. No claim
below depends on the value, only on the shape of the call site. -/
def strptimeLastModified (s : String) : Except Unit Tm := do
  let step (expected : Char) (l : List Char) : Except Unit (List Char) :=
    match l with
    | c :: rest => if c = expected then .ok rest else .error ()
    | [] => .error ()
  let some (y, r1) := takeDigits 4 s.data | .error ()
  let r2 ← step '-' r1
  let some (mo, r3) := takeDigits 2 r2 | .error ()
  let r4 ← step '-' r3
  let some (d, r5) := takeDigits 2 r4 | .error ()
  let r6 ← step 'T' r5
  let some (h, r7) := takeDigits 2 r6 | .error ()
  let r8 ← step ':' r7
  let some (mi, r9) := takeDigits 2 r8 | .error ()
  let r10 ← step ':' r9
  let some (sec, r11) := takeDigits 2 r10 | .error ()
  if r11 = "Z".data ∨ r11 = "UTC".data ∨ r11 = "GMT".data then
    .ok ⟨(y : Int), mo, d, h, mi, sec⟩
  else .error ()

/-! ### Error types (src/error.rs is not part of the sources given; the
variants and their payloads are modelled from their construction sites in
src/song.rs, src/status.rs and src/output.rs and the spec's error taxonomy.
Variants whose payload wraps an opaque library error value are modelled
payload-free.) -/

inductive ParseError where
  | BadInteger
  | BadTime
  | NoRate
  | BadRate
  | NoBits
  | BadBits
  | NoChans
  | BadChans
  | BadState (s : String)
  | BadValue (s : String)
deriving DecidableEq, Repr

inductive ProtoError where
  | NoField (s : String)
deriving DecidableEq, Repr

inductive Error where
  | Parse (e : ParseError)
  | Proto (e : ProtoError)
deriving DecidableEq, Repr

/-! ### src/song.rs data model -/

/-- Song ID (`pub struct Id(pub u32)`). -/
structure Id where
  val : Nat
deriving DecidableEq, Repr

/-- Song place in the queue (`id: u32`, `pos: u32`, `prio: u8`). -/
structure QueuePlace where
  id : Id
  pos : Nat
  prio : Nat
deriving DecidableEq, Repr

/-- `Default` for `QueuePlace`. -/
def QueuePlace.default : QueuePlace := ⟨⟨0⟩, 0, 0⟩

/-- Song range: the tuple struct `Range(pub Duration, pub Option<Duration>)`;
`start` and `stop` stand for the positional fields `.0` and `.1`. -/
structure Range where
  start : Duration
  stop : Option Duration
deriving DecidableEq, Repr

/-- `Default` for `Range`: `Range(Duration::seconds(0), None)`. -/
def Range.default : Range := ⟨Duration.seconds 0, none⟩

/-- `Range::from_str` (src/song.rs): split on the hyphen, keep only the
fragments that parse as integers (`flat_map(|v| v.parse().into_iter())`), and
dispatch on the first two elements of the resulting iterator. The source's
four match arms, the second of which cannot fire (a second `next()` after a
`None` is again `None`), all return `Ok`. -/
def rangeFromStr (s : String) : Except ParseError Range :=
  let splits := (rustSplit '-' s).filterMap rustParseI64
  match splits[0]?, splits[1]? with
  | some a, some b => .ok ⟨Duration.seconds a, some (Duration.seconds b)⟩
  | none, some b => .ok ⟨Duration.zero, some (Duration.seconds b)⟩
  | some a, none => .ok ⟨Duration.seconds a, none⟩
  | none, none => .ok ⟨Duration.zero, none⟩

/-! ### Tag map (std::collections::BTreeMap<String, String>) -/

/-- Model of `BTreeMap<String, String>`: an association list kept sorted by
key, insertion replacing an existing binding. -/
def TagMap : Type := List (String × String)

instance : DecidableEq TagMap := by
  unfold TagMap
  infer_instance

instance : Repr TagMap := by
  unfold TagMap
  infer_instance

/-- The empty map (`BTreeMap::new`, the `Default` tag map). -/
def TagMap.empty : TagMap := []

/-- `BTreeMap::insert` (ordered insertion; an existing binding for the key is
replaced). -/
def TagMap.insert (m : TagMap) (k v : String) : TagMap :=
  match m with
  | [] => [(k, v)]
  | (k0, v0) :: rest =>
    if k < k0 then (k, v) :: (k0, v0) :: rest
    else if k = k0 then (k, v) :: rest
    else (k0, v0) :: TagMap.insert rest k v

/-- `BTreeMap::get`. -/
def TagMap.get (m : TagMap) (k : String) : Option String :=
  match m with
  | [] => none
  | (k0, v0) :: rest => if k = k0 then some v0 else TagMap.get rest k

/-! ### Song and its sequential decoder (src/song.rs) -/

/-- Song data (src/song.rs `struct Song`). -/
structure Song where
  file : String
  name : Option String
  title : Option String
  last_mod : Option Tm
  duration : Option Duration
  place : Option QueuePlace
  range : Option Range
  tags : TagMap
deriving DecidableEq, Repr

/-- `Default` for `Song`. -/
def Song.default : Song :=
  ⟨"", none, none, none, none, none, none, TagMap.empty⟩

/-- One iteration of the `Song::from_iter` loop: dispatch a single key/value
pair against the accumulated song. Mirrors the source's match arms in order;
the fallback arm inserts the pair into the tag map. -/
def songStep (result : Song) (line : String × String) : Except Error Song :=
  if line.1 = "file" then .ok { result with file := line.2 }
  else if line.1 = "Title" then .ok { result with title := some line.2 }
  else if line.1 = "Last-Modified" then
    match strptimeLastModified line.2 with
    | .ok tm => .ok { result with last_mod := some tm }
    | .error _ => .error (Error.Parse ParseError.BadTime)
  else if line.1 = "Name" then .ok { result with name := some line.2 }
  else if line.1 = "Time" then
    match rustParseI64 line.2 with
    | some n => .ok { result with duration := some (Duration.seconds n) }
    | none => .error (Error.Parse ParseError.BadInteger)
  else if line.1 = "Range" then
    match rangeFromStr line.2 with
    | .ok r => .ok { result with range := some r }
    | .error e => .error (Error.Parse e)
  else if line.1 = "Id" then
    match result.place with
    | none =>
      match rustParseU32 line.2 with
      | some n => .ok { result with place := some ⟨⟨n⟩, 0, 0⟩ }
      | none => .error (Error.Parse ParseError.BadInteger)
    | some place =>
      match rustParseU32 line.2 with
      | some n => .ok { result with place := some { place with id := ⟨n⟩ } }
      | none => .error (Error.Parse ParseError.BadInteger)
  else if line.1 = "Pos" then
    match result.place with
    | none =>
      match rustParseU32 line.2 with
      | some n => .ok { result with place := some ⟨⟨0⟩, n, 0⟩ }
      | none => .error (Error.Parse ParseError.BadInteger)
    | some place =>
      match rustParseU32 line.2 with
      | some n => .ok { result with place := some { place with pos := n } }
      | none => .error (Error.Parse ParseError.BadInteger)
  else if line.1 = "Prio" then
    match result.place with
    | none =>
      match rustParseU8 line.2 with
      | some n => .ok { result with place := some ⟨⟨0⟩, 0, n⟩ }
      | none => .error (Error.Parse ParseError.BadInteger)
    | some place =>
      match rustParseU8 line.2 with
      | some n => .ok { result with place := some { place with prio := n } }
      | none => .error (Error.Parse ParseError.BadInteger)
  else .ok { result with tags := result.tags.insert line.1 line.2 }

/-- The loop body of `Song::from_iter`: `try!` the iterator item, then
dispatch it, threading the accumulated song. -/
def songFromIterLoop : Song → List (Except Error (String × String)) →
    Except Error Song
  | result, [] => .ok result
  | result, res :: rest => do
    let line ← res
    let result ← songStep result line
    songFromIterLoop result rest

/-- `Song::from_iter` (src/song.rs): fold the item sequence over
`Song::default()`. -/
def songFromIter (l : List (Except Error (String × String))) :
    Except Error Song :=
  songFromIterLoop Song.default l

/-- `Song::from_iter` applied to a sequence of plain key/value pairs (an
iterator none of whose items is itself an error). -/
def songFromPairs (l : List (String × String)) : Except Error Song :=
  songFromIter (l.map Except.ok)

/-! ### src/status.rs data model -/

/-- Audio playback format (`rate: u32`, `bits: u8`, `chans: u8`). -/
structure AudioFormat where
  rate : Nat
  bits : Nat
  chans : Nat
deriving DecidableEq, Repr

/-- The component dispatch of `AudioFormat::from_str`: three sequential
`next()` calls on the colon-split iterator, each with its own missing and
malformed error; a literal `f` in the bits position yields bit depth 0. -/
def audioFormatFromParts (parts : List String) : Except ParseError AudioFormat := do
  let rate ← match parts[0]? with
    | none => Except.error ParseError.NoRate
    | some v =>
      match rustParseU32 v with
      | some n => Except.ok n
      | none => Except.error ParseError.BadRate
  let bits ← match parts[1]? with
    | none => Except.error ParseError.NoBits
    | some v =>
      if v = "f" then Except.ok 0
      else
        match rustParseU8 v with
        | some n => Except.ok n
        | none => Except.error ParseError.BadBits
  let chans ← match parts[2]? with
    | none => Except.error ParseError.NoChans
    | some v =>
      match rustParseU8 v with
      | some n => Except.ok n
      | none => Except.error ParseError.BadChans
  Except.ok ⟨rate, bits, chans⟩

/-- `AudioFormat::from_str` (src/status.rs). -/
def audioFormatFromStr (s : String) : Except ParseError AudioFormat :=
  audioFormatFromParts (rustSplit ':' s)

/-- Playback state. -/
inductive State where
  | Stop
  | Play
  | Pause
deriving DecidableEq, Repr

/-- `Default` for `State`. -/
def State.default : State := State.Stop

/-- `State::from_str` (src/status.rs). -/
def stateFromStr (s : String) : Except ParseError State :=
  if s = "stop" then .ok State.Stop
  else if s = "play" then .ok State.Play
  else if s = "pause" then .ok State.Pause
  else .error (ParseError.BadState s)

/-- Replay gain mode. -/
inductive ReplayGain where
  | Off
  | Track
  | Album
  | Auto
deriving DecidableEq, Repr

/-- `ReplayGain::from_str` (src/status.rs). -/
def replayGainFromStr (s : String) : Except ParseError ReplayGain :=
  if s = "off" then .ok ReplayGain.Off
  else if s = "track" then .ok ReplayGain.Track
  else if s = "album" then .ok ReplayGain.Album
  else if s = "auto" then .ok ReplayGain.Auto
  else .error (ParseError.BadValue s)

/-- MPD status (src/status.rs `struct Status`). `volume` is an `i8` in the
source, modelled as `Int` with its range enforced by the parse; `mixrampdb`
is an `f32` never assigned by the decoder. -/
structure Status where
  volume : Int
  «repeat» : Bool
  random : Bool
  single : Bool
  consume : Bool
  queue_version : Nat
  queue_len : Nat
  state : State
  song : Option QueuePlace
  nextsong : Option QueuePlace
  time : Option (Duration × Duration)
  elapsed : Option Duration
  duration : Option Duration
  bitrate : Option Nat
  crossfade : Option Duration
  mixrampdb : Float
  mixrampdelay : Option Duration
  audio : Option AudioFormat
  updating_db : Option Nat
  error : Option String
  replaygain : Option ReplayGain
deriving Repr

/-- `Default` for `Status`. -/
def Status.default : Status :=
  ⟨0, false, false, false, false, 0, 0, State.default, none, none, none,
   none, none, none, none, 0.0, none, none, none, none, none⟩

/-- Rust's `splitn(2, ':')`: at most two pieces, the second keeping any
further separators. -/
def splitn2Colon (s : String) : List String :=
  match splitListOn ':' s.data with
  | [] => []
  | [a] => [⟨a⟩]
  | a :: rest => [⟨a⟩, ⟨List.intercalate [':'] rest⟩]

/-- The bound split iterator of the time arm: each of the (at most two)
colon-separated pieces parsed as whole seconds, keeping the per-piece
parse result as the source's `map` over the `splitn` iterator does. -/
def timeParts (v : String) : List (Except ParseError Duration) :=
  (splitn2Colon v).map (fun x =>
    match rustParseI64 x with
    | some n => Except.ok (Duration.seconds n)
    | none => Except.error ParseError.BadInteger)

/-- One iteration of the `Status::from_iter` loop: dispatch a single
key/value pair against the accumulated status, mirroring the source's match
arms in order. The fallback arm leaves the status unchanged. -/
def statusStep (result : Status) (line : String × String) : Except Error Status :=
  if line.1 = "volume" then
    match rustParseI8 line.2 with
    | some n => .ok { result with volume := n }
    | none => .error (Error.Parse ParseError.BadInteger)
  else if line.1 = "repeat" then .ok { result with «repeat» := line.2 = "1" }
  else if line.1 = "random" then .ok { result with random := line.2 = "1" }
  else if line.1 = "single" then .ok { result with single := line.2 = "1" }
  else if line.1 = "consume" then .ok { result with consume := line.2 = "1" }
  else if line.1 = "playlist" then
    match rustParseU32 line.2 with
    | some n => .ok { result with queue_version := n }
    | none => .error (Error.Parse ParseError.BadInteger)
  else if line.1 = "playlistlength" then
    match rustParseU32 line.2 with
    | some n => .ok { result with queue_len := n }
    | none => .error (Error.Parse ParseError.BadInteger)
  else if line.1 = "state" then
    match stateFromStr line.2 with
    | .ok st => .ok { result with state := st }
    | .error e => .error (Error.Parse e)
  else if line.1 = "songid" then
    match result.song with
    | none =>
      match rustParseU32 line.2 with
      | some n => .ok { result with song := some ⟨⟨n⟩, 0, 0⟩ }
      | none => .error (Error.Parse ParseError.BadInteger)
    | some place =>
      match rustParseU32 line.2 with
      | some n => .ok { result with song := some { place with id := ⟨n⟩ } }
      | none => .error (Error.Parse ParseError.BadInteger)
  else if line.1 = "song" then
    match result.song with
    | none =>
      match rustParseU32 line.2 with
      | some n => .ok { result with song := some ⟨⟨0⟩, n, 0⟩ }
      | none => .error (Error.Parse ParseError.BadInteger)
    | some place =>
      match rustParseU32 line.2 with
      | some n => .ok { result with song := some { place with pos := n } }
      | none => .error (Error.Parse ParseError.BadInteger)
  else if line.1 = "nextsongid" then
    match result.nextsong with
    | none =>
      match rustParseU32 line.2 with
      | some n => .ok { result with nextsong := some ⟨⟨n⟩, 0, 0⟩ }
      | none => .error (Error.Parse ParseError.BadInteger)
    | some place =>
      match rustParseU32 line.2 with
      | some n => .ok { result with nextsong := some { place with id := ⟨n⟩ } }
      | none => .error (Error.Parse ParseError.BadInteger)
  else if line.1 = "nextsong" then
    match result.nextsong with
    | none =>
      match rustParseU32 line.2 with
      | some n => .ok { result with nextsong := some ⟨⟨0⟩, n, 0⟩ }
      | none => .error (Error.Parse ParseError.BadInteger)
    | some place =>
      match rustParseU32 line.2 with
      | some n => .ok { result with nextsong := some { place with pos := n } }
      | none => .error (Error.Parse ParseError.BadInteger)
  else if line.1 = "time" then
    match (timeParts line.2)[0]?, (timeParts line.2)[1]? with
    | some (Except.ok a), some (Except.ok b) =>
        .ok { result with time := some (a, b) }
    | some (Except.error e), _ => .error (Error.Parse e)
    | _, some (Except.error e) => .error (Error.Parse e)
    | _, _ => .ok { result with time := none }
  else if line.1 = "elapsed" then
    .ok { result with
      elapsed := (rustParseF32 line.2).map
        (fun v => Duration.milliseconds v.toMillis) }
  else if line.1 = "duration" then
    match rustParseI64 line.2 with
    | some n => .ok { result with duration := some (Duration.seconds n) }
    | none => .error (Error.Parse ParseError.BadInteger)
  else if line.1 = "bitrate" then
    match rustParseU32 line.2 with
    | some n => .ok { result with bitrate := some n }
    | none => .error (Error.Parse ParseError.BadInteger)
  else if line.1 = "xfade" then
    match rustParseI64 line.2 with
    | some n => .ok { result with crossfade := some (Duration.seconds n) }
    | none => .error (Error.Parse ParseError.BadInteger)
  else if line.1 = "audio" then
    match audioFormatFromStr line.2 with
    | .ok a => .ok { result with audio := some a }
    | .error e => .error (Error.Parse e)
  else if line.1 = "updating_db" then
    match rustParseU32 line.2 with
    | some n => .ok { result with updating_db := some n }
    | none => .error (Error.Parse ParseError.BadInteger)
  else if line.1 = "error" then .ok { result with error := some line.2 }
  else if line.1 = "replay_gain_mode" then
    match replayGainFromStr line.2 with
    | .ok g => .ok { result with replaygain := some g }
    | .error e => .error (Error.Parse e)
  else .ok result

/-- The loop body of `Status::from_iter`. -/
def statusFromIterLoop : Status → List (Except Error (String × String)) →
    Except Error Status
  | result, [] => .ok result
  | result, res :: rest => do
    let line ← res
    let result ← statusStep result line
    statusFromIterLoop result rest

/-- `Status::from_iter` (src/status.rs): fold the item sequence over
`Status::default()`. -/
def statusFromIter (l : List (Except Error (String × String))) :
    Except Error Status :=
  statusFromIterLoop Status.default l

/-- `Status::from_iter` applied to a sequence of plain key/value pairs. -/
def statusFromPairs (l : List (String × String)) : Except Error Status :=
  statusFromIter (l.map Except.ok)

/-! ### src/output.rs -/

/-- Sound output. -/
structure Output where
  id : Nat
  name : String
  enabled : Bool
deriving DecidableEq, Repr

/-- Modelled from the spec: the `get_field!` macro lives in the crate's
convert/macros module, which is not among the sources given. Per the spec's
From-Map contract it pulls a required field from the key/value mapping,
"failing with a missing-field error naming the absent key", and converting
the value on success (numeric conversion failure being a bad-value parse
error). -/
def getFieldU32 (m : TagMap) (name : String) : Except Error Nat :=
  match m.get name with
  | none => .error (Error.Proto (ProtoError.NoField name))
  | some v =>
    match rustParseU32 v with
    | some n => .ok n
    | none => .error (Error.Parse ParseError.BadInteger)

/-- Modelled from the spec: the boolean variant `get_field!(map, bool key)`
of the missing macro; a missing key is a missing-field error, and the value
converts by comparison with "1", the crate's flag convention visible in the
repeat/random/single/consume arms of src/status.rs. -/
def getFieldBool (m : TagMap) (name : String) : Except Error Bool :=
  match m.get name with
  | none => .error (Error.Proto (ProtoError.NoField name))
  | some v => .ok (v = "1")

/-- `Output::from_map` (src/output.rs): pull `outputid`, `outputname` and
`outputenabled` in struct-literal order, each absence yielding a
missing-field error naming the key. -/
def outputFromMap (m : TagMap) : Except Error Output := do
  let id ← getFieldU32 m "outputid"
  let name ← match m.get "outputname" with
    | some v => Except.ok v
    | none => Except.error (Error.Proto (ProtoError.NoField "outputname"))
  let enabled ← getFieldBool m "outputenabled"
  .ok ⟨id, name, enabled⟩

/-- The keys recognized by the `Song::from_iter` match (every arm except the
fallback). -/
def songRecognizedKeys : List String :=
  ["file", "Title", "Last-Modified", "Name", "Time", "Range", "Id", "Pos",
   "Prio"]

/-- The keys recognized by the `Status::from_iter` match (every arm except
the fallback). -/
def statusRecognizedKeys : List String :=
  ["volume", "repeat", "random", "single", "consume", "playlist",
   "playlistlength", "state", "songid", "song", "nextsongid", "nextsong",
   "time", "elapsed", "duration", "bitrate", "xfade", "audio",
   "updating_db", "error", "replay_gain_mode"]

/-! ## Helper lemmas -/

/-- `Except` bind on a success, by unfolding. -/
theorem except_bind_ok {ε α β : Type} (a : α) (f : α → Except ε β) :
    (Except.ok a : Except ε α) >>= f = f a := rfl

/-- `Except` bind on an error, by unfolding. -/
theorem except_bind_error {ε α β : Type} (e : ε) (f : α → Except ε β) :
    (Except.error e : Except ε α) >>= f = Except.error e := rfl

/-- An `Except` value that is not `isOk` is some error. -/
theorem except_of_isOk_false {ε α : Type} {x : Except ε α}
    (h : x.isOk = false) : ∃ e, x = Except.error e := by
  cases x with
  | ok a => simp [Except.isOk, Except.toBool] at h
  | error e => exact ⟨e, rfl⟩

/-- Every arm of the `Range::from_str` match returns `Ok`. -/
theorem rangeFromStr_total (s : String) : ∃ r, rangeFromStr s = Except.ok r := by
  simp only [rangeFromStr]
  rcases (rustSplit '-' s).filterMap rustParseI64 with _ | ⟨a, _ | ⟨b, rest⟩⟩
  · exact ⟨_, rfl⟩
  · exact ⟨_, rfl⟩
  · simp only [List.getElem?_cons_zero, List.getElem?_cons_succ]
    exact ⟨_, rfl⟩

/-! ## Claim theorems -/

/-- Claim C1 (code behavior at the failing input): `Range::from_str` on
`"-20"` yields start = 20 seconds and end = `None`, not start = 0 and
end = `Some` 20 seconds as claimed: the `flat_map` drops the empty fragment
before the hyphen, so the 20 is consumed as the start. The remaining three
spec examples hold as stated. -/
theorem range_from_str_divergence :
    rangeFromStr "-20" = Except.ok ⟨Duration.seconds 20, none⟩ ∧
    rangeFromStr "-20" ≠ Except.ok ⟨Duration.zero, some (Duration.seconds 20)⟩ ∧
    rangeFromStr "10-20" =
      Except.ok ⟨Duration.seconds 10, some (Duration.seconds 20)⟩ ∧
    rangeFromStr "10-" = Except.ok ⟨Duration.seconds 10, none⟩ ∧
    rangeFromStr "" = Except.ok ⟨Duration.zero, none⟩ := by
  refine ⟨rfl, ?_, rfl, rfl, rfl⟩
  decide

/-- Claim C3: queue-place sub-field assembly is order independent: the Song
pair sequences Id,Pos and Pos,Id both decode to place id 7, pos 3, prio 0,
and likewise the Status songid/song and nextsongid/nextsong pairs in either
order merge into one QueuePlace rather than overwriting. -/
theorem queue_place_order_independent :
    (songFromPairs [("Id", "7"), ("Pos", "3")]).map Song.place
      = Except.ok (some ⟨⟨7⟩, 3, 0⟩) ∧
    (songFromPairs [("Pos", "3"), ("Id", "7")]).map Song.place
      = Except.ok (some ⟨⟨7⟩, 3, 0⟩) ∧
    (statusFromPairs [("songid", "7"), ("song", "3")]).map Status.song
      = Except.ok (some ⟨⟨7⟩, 3, 0⟩) ∧
    (statusFromPairs [("song", "3"), ("songid", "7")]).map Status.song
      = Except.ok (some ⟨⟨7⟩, 3, 0⟩) ∧
    (statusFromPairs [("nextsongid", "7"), ("nextsong", "3")]).map Status.nextsong
      = Except.ok (some ⟨⟨7⟩, 3, 0⟩) ∧
    (statusFromPairs [("nextsong", "3"), ("nextsongid", "7")]).map Status.nextsong
      = Except.ok (some ⟨⟨7⟩, 3, 0⟩) :=
  ⟨rfl, rfl, rfl, rfl, rfl, rfl⟩

/-- Claim C9: `Range::from_str` is total over its error type: every input
returns `Ok`; a wholly non-numeric value such as `"abc"` decodes to the
default range (start 0, end unbounded); hence the `Range` arm of
`Song::from_iter` never aborts a song decode. -/
theorem range_from_str_never_errors :
    (∀ s : String, ∃ r : Range, rangeFromStr s = Except.ok r) ∧
    rangeFromStr "abc" = Except.ok Range.default ∧
    (∀ (sg : Song) (v : String), ∃ sg' : Song,
      songStep sg ("Range", v) = Except.ok sg' ∧
      sg'.range = (rangeFromStr v).toOption) := by
  refine ⟨rangeFromStr_total, rfl, ?_⟩
  intro sg v
  obtain ⟨r, hr⟩ := rangeFromStr_total v
  refine ⟨{ sg with range := some r }, ?_, ?_⟩
  · simp [songStep, hr]
  · simp [hr, Except.toOption]

/-- Claim C10: the repeat/random/single/consume arms of `Status::from_iter`
set the flag to true exactly when the value is the string "1", yield false on
every other value, and never produce an error. -/
theorem bool_flags_compare_with_one (st : Status) (v : String) :
    statusStep st ("repeat", v) = Except.ok { st with «repeat» := v = "1" } ∧
    statusStep st ("random", v) = Except.ok { st with random := v = "1" } ∧
    statusStep st ("single", v) = Except.ok { st with single := v = "1" } ∧
    statusStep st ("consume", v) = Except.ok { st with consume := v = "1" } := by
  refine ⟨?_, ?_, ?_, ?_⟩ <;> simp [statusStep]

/-- Any missing or unconvertible component makes the audio-format component
dispatch fail. -/
theorem audioFormatFromParts_isOk_false (parts : List String)
    (h : parts.length < 3 ∨
      (∃ v, parts[0]? = some v ∧ rustParseU32 v = none) ∨
      (∃ v, parts[1]? = some v ∧ v ≠ "f" ∧ rustParseU8 v = none) ∨
      (∃ v, parts[2]? = some v ∧ rustParseU8 v = none)) :
    (audioFormatFromParts parts).isOk = false := by
  rcases parts with _ | ⟨a, _ | ⟨b, _ | ⟨c, rest⟩⟩⟩
  · rfl
  · cases hr : rustParseU32 a <;>
      simp [audioFormatFromParts, hr, except_bind_ok, except_bind_error,
        Except.isOk, Except.toBool]
  · cases hr : rustParseU32 a
    · simp [audioFormatFromParts, hr, except_bind_ok, except_bind_error,
        Except.isOk, Except.toBool]
    · by_cases hb : b = "f"
      · simp [audioFormatFromParts, hr, hb, except_bind_ok, except_bind_error,
          Except.isOk, Except.toBool]
      · cases h8 : rustParseU8 b <;>
          simp [audioFormatFromParts, hr, hb, h8, except_bind_ok,
            except_bind_error, Except.isOk, Except.toBool]
  · rcases h with hlen | ⟨v, hv, hp⟩ | ⟨v, hv, hvf, hp⟩ | ⟨v, hv, hp⟩
    · simp only [List.length_cons] at hlen
      omega
    · simp only [List.getElem?_cons_zero, Option.some.injEq] at hv
      subst hv
      simp [audioFormatFromParts, hp, except_bind_ok, except_bind_error,
        Except.isOk, Except.toBool]
    · simp only [List.getElem?_cons_succ, List.getElem?_cons_zero,
        Option.some.injEq] at hv
      subst hv
      cases hr : rustParseU32 a
      · simp [audioFormatFromParts, hr, except_bind_ok, except_bind_error,
          Except.isOk, Except.toBool]
      · simp [audioFormatFromParts, hr, hvf, hp, except_bind_ok,
          except_bind_error, Except.isOk, Except.toBool]
    · simp only [List.getElem?_cons_succ, List.getElem?_cons_zero,
        Option.some.injEq] at hv
      subst hv
      cases hr : rustParseU32 a
      · simp [audioFormatFromParts, hr, except_bind_ok, except_bind_error,
          Except.isOk, Except.toBool]
      · by_cases hb : b = "f"
        · simp [audioFormatFromParts, hr, hb, hp, except_bind_ok,
            except_bind_error, Except.isOk, Except.toBool]
        · cases h8 : rustParseU8 b <;>
            simp [audioFormatFromParts, hr, hb, h8, hp, except_bind_ok,
              except_bind_error, Except.isOk, Except.toBool]

/-- Claim C5: `AudioFormat::from_str` decodes rate, bits and channels from a
colon-separated triple, a literal f in the bits position meaning bit depth 0;
a missing component, or a component that fails its numeric conversion (with
bits not the literal f), yields a parse error. -/
theorem audio_format_from_str_spec :
    audioFormatFromStr "44100:16:2" = Except.ok ⟨44100, 16, 2⟩ ∧
    audioFormatFromStr "48000:f:6" = Except.ok ⟨48000, 0, 6⟩ ∧
    (∀ s : String,
      ((rustSplit ':' s).length < 3 ∨
       (∃ v, (rustSplit ':' s)[0]? = some v ∧ rustParseU32 v = none) ∨
       (∃ v, (rustSplit ':' s)[1]? = some v ∧ v ≠ "f" ∧ rustParseU8 v = none) ∨
       (∃ v, (rustSplit ':' s)[2]? = some v ∧ rustParseU8 v = none)) →
      ∃ e, audioFormatFromStr s = Except.error e) := by
  refine ⟨rfl, rfl, ?_⟩
  intro s h
  exact except_of_isOk_false (audioFormatFromParts_isOk_false (rustSplit ':' s) h)

/-- Witness for C5: a two-component string is missing its channels
component and is rejected. -/
theorem audio_format_from_str_spec_w :
    ∃ e, audioFormatFromStr "44100:16" = Except.error e :=
  audio_format_from_str_spec.2.2 "44100:16" (Or.inl (by decide))

/-- Claim C8: `State::from_str` succeeds exactly on stop, play and pause and
fails with a BadState parse error on every other string, and
`ReplayGain::from_str` succeeds exactly on off, track, album and auto and
fails with a BadValue parse error on every other string. -/
theorem state_replaygain_exact_domains :
    stateFromStr "stop" = Except.ok State.Stop ∧
    stateFromStr "play" = Except.ok State.Play ∧
    stateFromStr "pause" = Except.ok State.Pause ∧
    (∀ s : String, s ≠ "stop" → s ≠ "play" → s ≠ "pause" →
      stateFromStr s = Except.error (ParseError.BadState s)) ∧
    replayGainFromStr "off" = Except.ok ReplayGain.Off ∧
    replayGainFromStr "track" = Except.ok ReplayGain.Track ∧
    replayGainFromStr "album" = Except.ok ReplayGain.Album ∧
    replayGainFromStr "auto" = Except.ok ReplayGain.Auto ∧
    (∀ s : String, s ≠ "off" → s ≠ "track" → s ≠ "album" → s ≠ "auto" →
      replayGainFromStr s = Except.error (ParseError.BadValue s)) := by
  refine ⟨rfl, rfl, rfl, ?_, rfl, rfl, rfl, rfl, ?_⟩
  · intro s h1 h2 h3
    simp [stateFromStr, h1, h2, h3]
  · intro s h1 h2 h3 h4
    simp [replayGainFromStr, h1, h2, h3, h4]

/-- Witness for C8: a string outside each enumeration is rejected with the
parse error carrying it. -/
theorem state_replaygain_exact_domains_w :
    stateFromStr "stopped" = Except.error (ParseError.BadState "stopped") ∧
    replayGainFromStr "none" = Except.error (ParseError.BadValue "none") :=
  ⟨state_replaygain_exact_domains.2.2.2.1 "stopped" (by decide) (by decide)
      (by decide),
   state_replaygain_exact_domains.2.2.2.2.2.2.2.2 "none" (by decide)
      (by decide) (by decide) (by decide)⟩

/-- Claim C6: every key outside Song's nine recognized keys is inserted
into the song's tag map by `Song::from_iter` without error (even a key such
as volume that only Status recognizes), and every key outside Status's
recognized keys is ignored by `Status::from_iter`, leaving the status
unchanged (even a key such as Title that only Song recognizes): each
conjunct assumes only its own decoder's hypothesis. -/
theorem unrecognized_key_policy (sg : Song) (st : Status) (k v : String) :
    (k ∉ songRecognizedKeys →
      songStep sg (k, v) = Except.ok { sg with tags := sg.tags.insert k v }) ∧
    (k ∉ statusRecognizedKeys → statusStep st (k, v) = Except.ok st) := by
  constructor
  · intro hs
    simp only [songRecognizedKeys, List.mem_cons, List.not_mem_nil,
      or_false, not_or] at hs
    obtain ⟨h1, h2, h3, h4, h5, h6, h7, h8, h9⟩ := hs
    simp [songStep, h1, h2, h3, h4, h5, h6, h7, h8, h9]
  · intro ht
    simp only [statusRecognizedKeys, List.mem_cons, List.not_mem_nil,
      or_false, not_or] at ht
    obtain ⟨g1, g2, g3, g4, g5, g6, g7, g8, g9, g10, g11, g12, g13, g14,
      g15, g16, g17, g18, g19, g20, g21⟩ := ht
    simp [statusStep, g1, g2, g3, g4, g5, g6, g7, g8, g9, g10, g11, g12,
      g13, g14, g15, g16, g17, g18, g19, g20, g21]

/-- Witness for C6 at the cross keys: volume is not a Song key, so the song
decoder stores it as a tag; Title is not a Status key, so the status decoder
drops it. -/
theorem unrecognized_key_policy_w :
    songStep Song.default ("volume", "X") =
      Except.ok
        { Song.default with tags := Song.default.tags.insert "volume" "X" } ∧
    statusStep Status.default ("Title", "Y") = Except.ok Status.default :=
  ⟨(unrecognized_key_policy Song.default Status.default "volume" "X").1
      (by decide),
   (unrecognized_key_policy Song.default Status.default "Title" "Y").2
      (by decide)⟩

/-- Claim C2: a value for the recognized key elapsed that fails the numeric
parse is tolerated — the decode continues with the elapsed field absent —
while the same failure on any other recognized numeric Status key (volume,
playlist, playlistlength, songid, song, nextsongid, nextsong, time,
duration, bitrate, xfade, updating_db) aborts the decode with an error. -/
theorem elapsed_parse_failure_tolerated (st : Status) (v : String)
    (hf : rustParseF32 v = none)
    (h8 : rustParseI8 v = none)
    (h32 : rustParseU32 v = none)
    (h64 : rustParseI64 v = none)
    (hc : splitn2Colon v = [v]) :
    statusStep st ("elapsed", v) = Except.ok { st with elapsed := none } ∧
    statusStep st ("volume", v) = Except.error (Error.Parse ParseError.BadInteger) ∧
    statusStep st ("playlist", v) = Except.error (Error.Parse ParseError.BadInteger) ∧
    statusStep st ("playlistlength", v) = Except.error (Error.Parse ParseError.BadInteger) ∧
    statusStep st ("songid", v) = Except.error (Error.Parse ParseError.BadInteger) ∧
    statusStep st ("song", v) = Except.error (Error.Parse ParseError.BadInteger) ∧
    statusStep st ("nextsongid", v) = Except.error (Error.Parse ParseError.BadInteger) ∧
    statusStep st ("nextsong", v) = Except.error (Error.Parse ParseError.BadInteger) ∧
    statusStep st ("time", v) = Except.error (Error.Parse ParseError.BadInteger) ∧
    statusStep st ("duration", v) = Except.error (Error.Parse ParseError.BadInteger) ∧
    statusStep st ("bitrate", v) = Except.error (Error.Parse ParseError.BadInteger) ∧
    statusStep st ("xfade", v) = Except.error (Error.Parse ParseError.BadInteger) ∧
    statusStep st ("updating_db", v) = Except.error (Error.Parse ParseError.BadInteger) := by
  refine ⟨?_, ?_, ?_, ?_, ?_, ?_, ?_, ?_, ?_, ?_, ?_, ?_, ?_⟩
  · simp [statusStep, hf]
  · simp [statusStep, h8]
  · simp [statusStep, h32]
  · simp [statusStep, h32]
  · cases hsong : st.song <;> simp [statusStep, hsong, h32]
  · cases hsong : st.song <;> simp [statusStep, hsong, h32]
  · cases hnext : st.nextsong <;> simp [statusStep, hnext, h32]
  · cases hnext : st.nextsong <;> simp [statusStep, hnext, h32]
  · simp [statusStep, timeParts, hc, h64]
  · simp [statusStep, h64]
  · simp [statusStep, h32]
  · simp [statusStep, h64]
  · simp [statusStep, h32]

/-- Witness for C2: the non-numeric value abc leaves elapsed absent without
aborting, while the same value under duration aborts the decode. -/
theorem elapsed_parse_failure_tolerated_w :
    statusStep Status.default ("elapsed", "abc") =
      Except.ok { Status.default with elapsed := none } ∧
    statusStep Status.default ("duration", "abc") =
      Except.error (Error.Parse ParseError.BadInteger) := by
  have h := elapsed_parse_failure_tolerated Status.default "abc" (by decide)
    (by decide) (by decide) (by decide) (by decide)
  exact ⟨h.1, h.2.2.2.2.2.2.2.2.2.1⟩

/-- Claim C7: `Output::from_map` returns the struct of decoded field values
when outputid, outputname and outputenabled are all present and convertible,
and a missing-field error naming the absent key when a required key is
missing. -/
theorem output_from_map_fields (m : TagMap) :
    (∀ i idv n b, m.get "outputid" = some i → rustParseU32 i = some idv →
      m.get "outputname" = some n → m.get "outputenabled" = some b →
      outputFromMap m = Except.ok ⟨idv, n, b = "1"⟩) ∧
    (m.get "outputid" = none →
      outputFromMap m = Except.error (Error.Proto (ProtoError.NoField "outputid"))) ∧
    (∀ i idv, m.get "outputid" = some i → rustParseU32 i = some idv →
      m.get "outputname" = none →
      outputFromMap m = Except.error (Error.Proto (ProtoError.NoField "outputname"))) ∧
    (∀ i idv n, m.get "outputid" = some i → rustParseU32 i = some idv →
      m.get "outputname" = some n → m.get "outputenabled" = none →
      outputFromMap m = Except.error (Error.Proto (ProtoError.NoField "outputenabled"))) := by
  refine ⟨?_, ?_, ?_, ?_⟩
  · intro i idv n b hi hp hn hb
    simp [outputFromMap, getFieldU32, getFieldBool, hi, hp, hn, hb,
      except_bind_ok, except_bind_error]
  · intro hi
    simp [outputFromMap, getFieldU32, hi, except_bind_ok, except_bind_error]
  · intro i idv hi hp hn
    simp [outputFromMap, getFieldU32, hi, hp, hn, except_bind_ok,
      except_bind_error]
  · intro i idv n hi hp hn hb
    simp [outputFromMap, getFieldU32, getFieldBool, hi, hp, hn, hb,
      except_bind_ok, except_bind_error]

/-- Witness for C7: a full map decodes to the output struct; dropping
outputname yields the missing-field error naming it. -/
theorem output_from_map_fields_w :
    outputFromMap
        ([("outputenabled", "1"), ("outputid", "3"), ("outputname", "Main")] :
          TagMap)
      = Except.ok ⟨3, "Main", true⟩ ∧
    outputFromMap ([("outputenabled", "1"), ("outputid", "3")] : TagMap)
      = Except.error (Error.Proto (ProtoError.NoField "outputname")) := by
  constructor
  · have h := (output_from_map_fields
      ([("outputenabled", "1"), ("outputid", "3"), ("outputname", "Main")] :
        TagMap)).1 "3" 3 "Main" "1" (by decide) (by decide) (by decide)
      (by decide)
    simpa using h
  · exact (output_from_map_fields
      ([("outputenabled", "1"), ("outputid", "3")] : TagMap)).2.2.1 "3" 3
      (by decide) (by decide) (by decide)

/-- A successful signed digit parse lies in the two's-complement range of
its width. -/
theorem signedOfDigits_range {w : Nat} {neg : Bool} {cs : List Char}
    {n : Int} (h : signedOfDigits w neg cs = some n) :
    -(((2 ^ (w - 1) : Nat) : Int)) ≤ n ∧ n ≤ ((2 ^ (w - 1) : Nat) : Int) - 1 := by
  unfold signedOfDigits at h
  cases hd : digitsVal? cs with
  | none =>
    rw [hd] at h
    exact absurd h (by simp)
  | some m =>
    rw [hd] at h
    have h : (if neg = true then
        (if m ≤ 2 ^ (w - 1) then some (-(m : Int)) else none)
      else
        (if m < 2 ^ (w - 1) then some (m : Int) else none)) = some n := h
    have h1 : 1 ≤ 2 ^ (w - 1) := Nat.one_le_two_pow
    by_cases hneg : neg = true
    · rw [if_pos hneg] at h
      by_cases hb : m ≤ 2 ^ (w - 1)
      · rw [if_pos hb] at h
        injection h with h
        subst h
        generalize (2 : Nat) ^ (w - 1) = K at hb h1 ⊢
        omega
      · rw [if_neg hb] at h
        exact absurd h (by simp)
    · rw [if_neg hneg] at h
      by_cases hb : m < 2 ^ (w - 1)
      · rw [if_pos hb] at h
        injection h with h
        subst h
        generalize (2 : Nat) ^ (w - 1) = K at hb h1 ⊢
        omega
      · rw [if_neg hb] at h
        exact absurd h (by simp)

/-- A successful i8 parse lies in the i8 range. -/
theorem rustParseI8_range {s : String} {n : Int}
    (h : rustParseI8 s = some n) : -128 ≤ n ∧ n ≤ 127 := by
  have key : ∀ (neg : Bool) (cs : List Char),
      signedOfDigits 8 neg cs = some n → -128 ≤ n ∧ n ≤ 127 := by
    intro neg cs hh
    have hr := signedOfDigits_range hh
    norm_num at hr
    exact hr
  unfold rustParseI8 rustParseSigned at h
  split at h
  · exact key _ _ h
  · exact key _ _ h
  · exact key _ _ h

/-- `statusStep` keeps the volume field inside the i8 range: the volume arm
installs a freshly parsed i8, and no other arm touches the field. -/
theorem statusStep_volume_range {st st' : Status} {kv : String × String}
    (h : statusStep st kv = Except.ok st')
    (hv : -128 ≤ st.volume ∧ st.volume ≤ 127) :
    -128 ≤ st'.volume ∧ st'.volume ≤ 127 := by
  unfold statusStep at h
  by_cases e1 : kv.1 = "volume"
  · rw [if_pos e1] at h
    cases hp : rustParseI8 kv.2 <;> simp only [hp] at h
    · exact (Except.noConfusion h)
    · injection h with h
      subst h
      exact rustParseI8_range hp
  rw [if_neg e1] at h
  by_cases e2 : kv.1 = "repeat"
  · rw [if_pos e2] at h
    injection h with h
    subst h
    exact hv
  rw [if_neg e2] at h
  by_cases e3 : kv.1 = "random"
  · rw [if_pos e3] at h
    injection h with h
    subst h
    exact hv
  rw [if_neg e3] at h
  by_cases e4 : kv.1 = "single"
  · rw [if_pos e4] at h
    injection h with h
    subst h
    exact hv
  rw [if_neg e4] at h
  by_cases e5 : kv.1 = "consume"
  · rw [if_pos e5] at h
    injection h with h
    subst h
    exact hv
  rw [if_neg e5] at h
  by_cases e6 : kv.1 = "playlist"
  · rw [if_pos e6] at h
    cases hp : rustParseU32 kv.2 <;> simp only [hp] at h
    · exact (Except.noConfusion h)
    · injection h with h
      subst h
      exact hv
  rw [if_neg e6] at h
  by_cases e7 : kv.1 = "playlistlength"
  · rw [if_pos e7] at h
    cases hp : rustParseU32 kv.2 <;> simp only [hp] at h
    · exact (Except.noConfusion h)
    · injection h with h
      subst h
      exact hv
  rw [if_neg e7] at h
  by_cases e8 : kv.1 = "state"
  · rw [if_pos e8] at h
    cases hp : stateFromStr kv.2 <;> simp only [hp] at h
    · exact (Except.noConfusion h)
    · injection h with h
      subst h
      exact hv
  rw [if_neg e8] at h
  by_cases e9 : kv.1 = "songid"
  · rw [if_pos e9] at h
    cases hs : st.song <;> simp only [hs] at h <;>
      cases hp : rustParseU32 kv.2 <;> simp only [hp] at h
    · exact (Except.noConfusion h)
    · injection h with h
      subst h
      exact hv
    · exact (Except.noConfusion h)
    · injection h with h
      subst h
      exact hv
  rw [if_neg e9] at h
  by_cases e10 : kv.1 = "song"
  · rw [if_pos e10] at h
    cases hs : st.song <;> simp only [hs] at h <;>
      cases hp : rustParseU32 kv.2 <;> simp only [hp] at h
    · exact (Except.noConfusion h)
    · injection h with h
      subst h
      exact hv
    · exact (Except.noConfusion h)
    · injection h with h
      subst h
      exact hv
  rw [if_neg e10] at h
  by_cases e11 : kv.1 = "nextsongid"
  · rw [if_pos e11] at h
    cases hs : st.nextsong <;> simp only [hs] at h <;>
      cases hp : rustParseU32 kv.2 <;> simp only [hp] at h
    · exact (Except.noConfusion h)
    · injection h with h
      subst h
      exact hv
    · exact (Except.noConfusion h)
    · injection h with h
      subst h
      exact hv
  rw [if_neg e11] at h
  by_cases e12 : kv.1 = "nextsong"
  · rw [if_pos e12] at h
    cases hs : st.nextsong <;> simp only [hs] at h <;>
      cases hp : rustParseU32 kv.2 <;> simp only [hp] at h
    · exact (Except.noConfusion h)
    · injection h with h
      subst h
      exact hv
    · exact (Except.noConfusion h)
    · injection h with h
      subst h
      exact hv
  rw [if_neg e12] at h
  by_cases e13 : kv.1 = "time"
  · rw [if_pos e13] at h
    rcases ht0 : (timeParts kv.2)[0]? with _ | (a | ea) <;>
      rcases ht1 : (timeParts kv.2)[1]? with _ | (b | eb) <;>
        simp only [ht0, ht1] at h <;>
        first
          | exact (Except.noConfusion h)
          | (injection h with h
             subst h
             exact hv)
  rw [if_neg e13] at h
  by_cases e14 : kv.1 = "elapsed"
  · rw [if_pos e14] at h
    injection h with h
    subst h
    exact hv
  rw [if_neg e14] at h
  by_cases e15 : kv.1 = "duration"
  · rw [if_pos e15] at h
    cases hp : rustParseI64 kv.2 <;> simp only [hp] at h
    · exact (Except.noConfusion h)
    · injection h with h
      subst h
      exact hv
  rw [if_neg e15] at h
  by_cases e16 : kv.1 = "bitrate"
  · rw [if_pos e16] at h
    cases hp : rustParseU32 kv.2 <;> simp only [hp] at h
    · exact (Except.noConfusion h)
    · injection h with h
      subst h
      exact hv
  rw [if_neg e16] at h
  by_cases e17 : kv.1 = "xfade"
  · rw [if_pos e17] at h
    cases hp : rustParseI64 kv.2 <;> simp only [hp] at h
    · exact (Except.noConfusion h)
    · injection h with h
      subst h
      exact hv
  rw [if_neg e17] at h
  by_cases e18 : kv.1 = "audio"
  · rw [if_pos e18] at h
    cases hp : audioFormatFromStr kv.2 <;> simp only [hp] at h
    · exact (Except.noConfusion h)
    · injection h with h
      subst h
      exact hv
  rw [if_neg e18] at h
  by_cases e19 : kv.1 = "updating_db"
  · rw [if_pos e19] at h
    cases hp : rustParseU32 kv.2 <;> simp only [hp] at h
    · exact (Except.noConfusion h)
    · injection h with h
      subst h
      exact hv
  rw [if_neg e19] at h
  by_cases e20 : kv.1 = "error"
  · rw [if_pos e20] at h
    injection h with h
    subst h
    exact hv
  rw [if_neg e20] at h
  by_cases e21 : kv.1 = "replay_gain_mode"
  · rw [if_pos e21] at h
    cases hp : replayGainFromStr kv.2 <;> simp only [hp] at h
    · exact (Except.noConfusion h)
    · injection h with h
      subst h
      exact hv
  rw [if_neg e21] at h
  injection h with h
  subst h
  exact hv

/-- The `Status::from_iter` loop keeps the volume field inside the i8
range. -/
theorem statusFromIterLoop_volume_range :
    ∀ (items : List (Except Error (String × String))) (st st' : Status),
      statusFromIterLoop st items = Except.ok st' →
      -128 ≤ st.volume ∧ st.volume ≤ 127 →
      -128 ≤ st'.volume ∧ st'.volume ≤ 127 := by
  intro items
  induction items with
  | nil =>
    intro st st' h hv
    unfold statusFromIterLoop at h
    injection h with h
    subst h
    exact hv
  | cons head tail ih =>
    intro st st' h hv
    unfold statusFromIterLoop at h
    cases head with
    | error e =>
      rw [except_bind_error] at h
      exact absurd h (by simp)
    | ok line =>
      rw [except_bind_ok] at h
      cases hs : statusStep st line with
      | error e =>
        rw [hs, except_bind_error] at h
        exact absurd h (by simp)
      | ok st1 =>
        rw [hs, except_bind_ok] at h
        exact ih st1 st' h (statusStep_volume_range hs hv)

/-- Counterexample to claim C4: the decode accepts the pair volume 127 and
produces a status whose volume is 127, outside the claimed −1..100 range. -/
theorem status_volume_counterexample :
    (statusFromPairs [("volume", "127")]).map Status.volume =
      Except.ok 127 ∧
    ¬((127 : Int) ≤ 100) := ⟨rfl, by decide⟩

/-- Claim C4 as amended: every status produced by `Status::from_iter` has
its volume in the i8 range −128..127 — the range the plain i8 parse of the
volume arm enforces; the decoder does not further restrict it to −1..100. -/
theorem status_volume_in_i8_range (l : List (String × String)) (st : Status)
    (h : statusFromPairs l = Except.ok st) :
    -128 ≤ st.volume ∧ st.volume ≤ 127 :=
  statusFromIterLoop_volume_range (l.map Except.ok) Status.default st h
    (by constructor <;> decide)

/-- Witness for the amended C4: the decode of volume 127 satisfies the i8
range bound. -/
theorem status_volume_in_i8_range_w :
    -128 ≤ ({ Status.default with volume := 127 } : Status).volume ∧
    ({ Status.default with volume := 127 } : Status).volume ≤ 127 :=
  status_volume_in_i8_range [("volume", "127")] _ rfl

end Mpd
